import Mathlib

/-!
Verification development for the endpoint monitor (`endpoint_monitor.py`).

The Python program is shallowly embedded below:

* Python floats that the program actually produces are either finite values
  or the sentinel `float('inf')`; we model them with `PyFloat` over `ℚ`.
* `EndpointConfig`, `HealthCheckResult`, `HealthChecker` and
  `MonitoringService` mirror the classes of the source file.
* Network input is abstracted as a `NetOutcome` per probe: either a response
  (status code and elapsed milliseconds) or a failure of some kind, all of
  which the source collapses in its `except Exception` handler.
* The `defaultdict(list)` held in `HealthChecker.results` is modelled as an
  insertion-ordered association list; `appendAt` is the effect of
  `self.results[domain].append(result)`.
* `urlparse(url).netloc` (CPython `urllib.parse`) is modelled character by
  character for URLs free of ASCII control characters and whitespace.
* The dataclass field default `timestamp: datetime = datetime.now()` is
  evaluated once, when the class body is executed at module import; we thread
  that single value as the `moduleLoadTime` argument.
-/

/-- Model of the Python float values the monitor manipulates: a finite
rational or the `float('inf')` sentinel used for failed probes. -/
inductive PyFloat where
  | val (q : ℚ)
  | inf
deriving DecidableEq

/-- Strict order on modelled floats: finite values compare as rationals and
`inf` is above every finite value (`float('inf') < x` is false for real `x`). -/
def PyFloat.blt : PyFloat → PyFloat → Bool
  | .val a, .val b => decide (a < b)
  | .val _, .inf => true
  | .inf, _ => false

/-- Dataclass `EndpointConfig`: `name`, `url`, optional `method` (default
`"GET"`), optional `headers`, optional `body`. -/
structure EndpointConfig where
  name : String
  url : String
  method : String := "GET"
  headers : Option (List (String × String)) := none
  body : Option String := none
deriving DecidableEq

/-- Characters CPython accepts inside a URL scheme
(`scheme_chars = ascii letters + digits + "+-."`). -/
def schemeChar (c : Char) : Bool :=
  c.isAlphanum || c == '+' || c == '-' || c == '.'

/-- CPython `urlsplit` treats the text before the first `:` as a scheme iff it
is nonempty, starts with an ASCII letter and consists of scheme characters. -/
def validScheme : List Char → Bool
  | [] => false
  | c :: cs => c.isAlpha && (c :: cs).all schemeChar

/-- Characters that terminate the netloc in CPython `_splitnetloc`. -/
def netlocDelim (c : Char) : Bool :=
  c == '/' || c == '?' || c == '#'

/-- Longest prefix free of `/`, `?`, `#` — the netloc part after `//`. -/
def takeNetloc : List Char → List Char
  | [] => []
  | c :: cs => if netlocDelim c then [] else c :: takeNetloc cs

/-- Drop a leading valid `scheme:` if present (CPython `urlsplit`:
`i = url.find(':')`, scheme accepted only when `i > 0` and well formed). -/
def stripScheme (l : List Char) : List Char :=
  let pre := l.takeWhile (fun c => c != ':')
  if pre.length < l.length && validScheme pre then l.drop (pre.length + 1) else l

/-- Model of `urlparse(url).netloc` for URLs without ASCII control characters, tabs or
newlines: after the optional scheme, the netloc is the text between a leading
`//` and the next `/`, `?` or `#`; otherwise it is empty. -/
def urlparseNetloc (l : List Char) : List Char :=
  match stripScheme l with
  | '/' :: '/' :: tail => takeNetloc tail
  | _ => []

/-- Method `EndpointConfig.get_domain`: `return urlparse(self.url).netloc`. -/
def EndpointConfig.get_domain (ep : EndpointConfig) : String :=
  String.mk (urlparseNetloc ep.url.data)

/-- Dataclass `HealthCheckResult`. `timestamp` is a `ℕ` stand-in for
`datetime`; the dataclass default is the single module-import-time value. -/
structure HealthCheckResult where
  endpoint_name : String
  domain : String
  response_time_ms : PyFloat
  status_code : ℤ
  timestamp : ℕ
deriving DecidableEq

/-- Property `HealthCheckResult.is_up`:
`200 <= self.status_code < 300 and self.response_time_ms < 500`. -/
def HealthCheckResult.is_up (r : HealthCheckResult) : Bool :=
  decide (200 ≤ r.status_code) && decide (r.status_code < 300) &&
    PyFloat.blt r.response_time_ms (.val 500)

/-- The failure modes all swallowed by `except Exception` in
`check_endpoint`; the handler does not distinguish them. -/
inductive FailureKind where
  | connectionRefused
  | dnsFailure
  | timeoutExpiry
  | malformedResponse
  | tlsFailure
deriving DecidableEq

/-- Abstract outcome of one network exchange: a response carrying the HTTP
status and the elapsed milliseconds measured by the surrounding timer, or a
failure (exception) of some kind. -/
inductive NetOutcome where
  | success (status : ℤ) (elapsed_ms : ℚ)
  | failure (kind : FailureKind)
deriving DecidableEq

/-- A response obtained over HTTP carries a status line of at least 100
(RFC 9110 status codes); failures carry no status at all. -/
def NetOutcome.httpValid : NetOutcome → Bool
  | .success status _ => decide (100 ≤ status)
  | .failure _ => true

/-- Method `HealthChecker.check_endpoint`: on a response, build a result from the
observed status and elapsed time; on any exception, build the DOWN sentinel
result (`status_code=0`, `response_time_ms=float('inf')`). The `timestamp`
field is never passed, so every result receives the dataclass default — the
single `datetime.now()` value evaluated at module import (`moduleLoadTime`). -/
def check_endpoint (moduleLoadTime : ℕ) (endpoint : EndpointConfig)
    (outcome : NetOutcome) : HealthCheckResult :=
  match outcome with
  | .success status elapsed_ms =>
      { endpoint_name := endpoint.name
        domain := endpoint.get_domain
        response_time_ms := .val elapsed_ms
        status_code := status
        timestamp := moduleLoadTime }
  | .failure _ =>
      { endpoint_name := endpoint.name
        domain := endpoint.get_domain
        response_time_ms := .inf
        status_code := 0
        timestamp := moduleLoadTime }

/-- Class `HealthChecker`: configured endpoints, the `defaultdict(list)` history
(as an insertion-ordered association list) and the single global
`aiohttp.ClientTimeout(total=5)` in seconds. -/
structure HealthChecker where
  endpoints : List EndpointConfig
  results : List (String × List HealthCheckResult)
  timeout_total : ℚ
deriving DecidableEq

/-- Constructor `HealthChecker.__init__`: store the endpoints, start with an empty
history, fix the global 5-second timeout. -/
def HealthChecker.init (endpoints : List EndpointConfig) : HealthChecker :=
  { endpoints := endpoints, results := [], timeout_total := 5 }

/-- Effect of `self.results[domain].append(result)` on the modelled dict:
append to the bucket of `domain`, creating it when absent (`defaultdict`). -/
def appendAt : List (String × List HealthCheckResult) → String →
    HealthCheckResult → List (String × List HealthCheckResult)
  | [], d, r => [(d, [r])]
  | (k, l) :: rest, d, r =>
      if k = d then (k, l ++ [r]) :: rest else (k, l) :: appendAt rest d r

/-- Method `HealthChecker.check_all_endpoints`: probe every endpoint (the network's
answers are supplied by the oracle `o`), then append each result to the
bucket keyed by its domain, in order. -/
def check_all_endpoints (moduleLoadTime : ℕ) (o : EndpointConfig → NetOutcome)
    (hc : HealthChecker) : HealthChecker :=
  let results := hc.endpoints.map (fun ep => check_endpoint moduleLoadTime ep (o ep))
  { hc with results := results.foldl (fun m r => appendAt m r.domain r) hc.results }

/-- Python `round` on the exact value: round to the nearest integer, ties to
the even integer (IEEE 754 roundTiesToEven, Python's documented behaviour). -/
def round_half_even (q : ℚ) : ℤ :=
  let f := ⌊q⌋
  let r := q - (f : ℚ)
  if r < 1/2 then f
  else if 1/2 < r then f + 1
  else if f % 2 = 0 then f else f + 1

/-- Body of the `for domain, checks in self.results.items()` loop of
`get_availability_stats`: count UP checks, divide by the total (guarding
`total_count > 0` with `else 0`), scale to a percentage and round. -/
def statVal (checks : List HealthCheckResult) : ℤ :=
  let up_count := (checks.filter (fun check => check.is_up)).length
  let total_count := checks.length
  let availability : ℚ :=
    if 0 < total_count then (up_count : ℚ) / (total_count : ℚ) * 100 else 0
  round_half_even availability

/-- Method `HealthChecker.get_availability_stats`: run the loop body over
every recorded domain, in insertion order. -/
def get_availability_stats (hc : HealthChecker) : List (String × ℤ) :=
  hc.results.map (fun p => (p.1, statVal p.2))

/-- The method call as a state transformer: the body only iterates
`self.results.items()` (a non-mutating read; it never subscripts the
`defaultdict` with a missing key) and writes a local `stats` dict, so the
receiver comes back unchanged next to the computed mapping. -/
def get_availability_stats_call (hc : HealthChecker) :
    HealthChecker × List (String × ℤ) :=
  (hc, get_availability_stats hc)

/-- First-match lookup in an insertion-ordered association list. -/
def alist_find {β : Type} : List (String × β) → String → Option β
  | [], _ => none
  | (k, v) :: rest, d => if k = d then some v else alist_find rest d

/-- The history bucket of a domain (empty when the domain was never seen). -/
def bucket (m : List (String × List HealthCheckResult)) (d : String) :
    List HealthCheckResult :=
  (alist_find m d).getD []

/-- Total number of results recorded across all buckets. -/
def total_len (m : List (String × List HealthCheckResult)) : ℕ :=
  (m.map (fun p => p.2.length)).sum

/-- Representation fact used for availability: every bucket in the history
holds at least one result. -/
def bucketsNonempty (m : List (String × List HealthCheckResult)) : Bool :=
  m.all (fun p => !p.2.isEmpty)

/-- One hexadecimal digit (used by the `\uXXXX` escapes of `json.dumps`). -/
def hexDigit (n : ℕ) : Char :=
  if n < 10 then Char.ofNat (48 + n) else Char.ofNat (87 + n)

/-- How `json.dumps` (default `ensure_ascii=True`) renders one character of a
string payload, following CPython's `ESCAPE_DCT`: `"` and `\` are
backslash-escaped, backspace, formfeed, newline, carriage return and tab get
the short escapes `\b`, `\f`, `\n`, `\r`, `\t`, other controls and all
non-ASCII basic-plane characters become `\uXXXX`, the rest pass through.
(Characters beyond U+FFFF, which Python renders as surrogate pairs, do not
occur in the payloads considered here.) -/
def jsonEscapeChar (c : Char) : List Char :=
  if c = '"' then ['\\', '"']
  else if c = '\\' then ['\\', '\\']
  else if c = '\x08' then ['\\', 'b']
  else if c = '\x0c' then ['\\', 'f']
  else if c = '\n' then ['\\', 'n']
  else if c = '\r' then ['\\', 'r']
  else if c = '\t' then ['\\', 't']
  else if c.toNat < 32 || 126 < c.toNat then
    ['\\', 'u', hexDigit (c.toNat / 4096 % 16), hexDigit (c.toNat / 256 % 16),
      hexDigit (c.toNat / 16 % 16), hexDigit (c.toNat % 16)]
  else [c]

/-- Effect of `json.dumps` applied to a string: the escaped text between quotes. This is
what aiohttp sends on the wire for a `json=` payload that is a `str`. -/
def json_dumps_str (s : String) : String :=
  String.mk ('"' :: (s.data.map jsonEscapeChar).flatten ++ ['"'])

/-- Python truthiness filter `x if x else None` applied to an optional
string: `None` and the empty string both become `None`. -/
def pyTruthyStr : Option String → Option String
  | none => none
  | some s => if s = "" then none else some s

/-- The one `session.request(...)` call issued by `check_endpoint`: keyword
arguments as the code passes them. `json_arg` is the value of the `json=`
keyword — `endpoint.body if endpoint.body else None`. -/
structure HttpRequest where
  method : String
  url : String
  headers : Option (List (String × String))
  json_arg : Option String
  timeout_total : ℚ
deriving DecidableEq

/-- Build the single request `check_endpoint` makes for one endpoint, with
the checker's global timeout. -/
def build_request (timeout_total : ℚ) (endpoint : EndpointConfig) : HttpRequest :=
  { method := endpoint.method
    url := endpoint.url
    headers := endpoint.headers
    json_arg := pyTruthyStr endpoint.body
    timeout_total := timeout_total }

/-- The requests `check_endpoint` issues for one endpoint: exactly one. -/
def requests_issued (hc : HealthChecker) (endpoint : EndpointConfig) :
    List HttpRequest :=
  [build_request hc.timeout_total endpoint]

/-- The body bytes aiohttp puts on the wire: the `json=` payload is
serialised with `json.dumps` (a `str` payload gets quoted and escaped). -/
def HttpRequest.wire_body (r : HttpRequest) : Option String :=
  r.json_arg.map json_dumps_str

/-- Control position of the `MonitoringService.run` loop:
before the loop body (`idle`), at the `while self.running` test
(`check_flag`), inside `run_check_cycle` (`in_cycle`), inside
`asyncio.sleep(15)` (`sleeping`), or after the loop (`stopped`). -/
inductive Phase where
  | idle
  | check_flag
  | in_cycle
  | sleeping
  | stopped
deriving DecidableEq

/-- Class `MonitoringService`: loop phase, the `self.running` flag, the held
`HealthChecker`, the stats mapping last handed to the reporter, and how many
cycles have completed. -/
structure MonitoringService where
  phase : Phase
  running : Bool
  health_checker : HealthChecker
  last_report : List (String × ℤ)
  cycles : ℕ
deriving DecidableEq

/-- Method `MonitoringService.stop`: `self.running = False` — nothing else. -/
def MonitoringService.stop (s : MonitoringService) : MonitoringService :=
  { s with running := false }

/-- Method `MonitoringService.run_check_cycle`: probe all endpoints, then compute
the availability stats of the updated history (aggregation strictly before
reporting). -/
def run_check_cycle (moduleLoadTime : ℕ) (o : EndpointConfig → NetOutcome)
    (hc : HealthChecker) : HealthChecker × List (String × ℤ) :=
  let hc' := check_all_endpoints moduleLoadTime o hc
  (hc', get_availability_stats hc')

/-- One step of the `run` loop. `self.running` is read only at the
`check_flag` position (the `while` test); an entered cycle runs to completion
and the sleep always finishes before the flag is consulted again. The oracle
`o` supplies the network's answers for each cycle number. -/
def service_step (moduleLoadTime : ℕ) (o : ℕ → EndpointConfig → NetOutcome)
    (s : MonitoringService) : MonitoringService :=
  match s.phase with
  | .idle => { s with phase := .check_flag, running := true }
  | .check_flag =>
      if s.running then { s with phase := .in_cycle }
      else { s with phase := .stopped }
  | .in_cycle =>
      let out := run_check_cycle moduleLoadTime (o s.cycles) s.health_checker
      { s with phase := .sleeping, health_checker := out.1,
               last_report := out.2, cycles := s.cycles + 1 }
  | .sleeping => { s with phase := .check_flag }
  | .stopped => s

/-- A sample UP result (status 200, 100 ms) used to instantiate theorems. -/
def sample_result : HealthCheckResult :=
  { endpoint_name := "e", domain := "d", response_time_ms := .val 100,
    status_code := 200, timestamp := 0 }

/-- A sample checker state holding one recorded UP result for domain `d`. -/
def sample_checker : HealthChecker :=
  { endpoints := [], results := [("d", [sample_result])], timeout_total := 5 }

/-- A sample endpoint whose configured body is the string `ping`. -/
def sample_body_endpoint : EndpointConfig :=
  { name := "e", url := "https://example.com/", body := some "ping" }

/-- A sample endpoint whose configured body is the empty string. -/
def sample_empty_body_endpoint : EndpointConfig :=
  { name := "e", url := "https://example.com/", body := some "" }

/-- A sample endpoint at host `example.com`, implicit default port 80. -/
def sample_http_endpoint : EndpointConfig :=
  { name := "a", url := "http://example.com/x" }

/-- A sample endpoint at the same host and port, the port written out. -/
def sample_http80_endpoint : EndpointConfig :=
  { name := "b", url := "http://example.com:80/y" }

/-- A sample service state parked in the inter-cycle sleep after three
cycles, with `stop()` already called (`running = false`). -/
def sample_sleeping_service : MonitoringService :=
  { phase := .sleeping, running := false,
    health_checker := HealthChecker.init [], last_report := [], cycles := 3 }

/-- A network oracle that times every probe out, for concrete instances. -/
def timeout_oracle : ℕ → EndpointConfig → NetOutcome :=
  fun _ _ => .failure .timeoutExpiry

/-! ### Helper lemmas on the association-list history -/

/-- Looking a key up in a value-mapped association list maps the lookup. -/
theorem alist_find_map_snd {β γ : Type} (g : β → γ) :
    ∀ (m : List (String × β)) (d : String),
      alist_find (m.map (fun p => (p.1, g p.2))) d = (alist_find m d).map g
  | [], _ => rfl
  | (k, v) :: rest, d => by
      by_cases h : k = d <;> simp [alist_find, h, alist_find_map_snd g rest d]

/-- A successful lookup exhibits a member of the association list. -/
theorem alist_find_mem {β : Type} (d : String) (v : β) :
    ∀ m : List (String × β), alist_find m d = some v → (d, v) ∈ m
  | [], h => by simp [alist_find] at h
  | (k, w) :: rest, h => by
      by_cases hk : k = d
      · subst hk
        simp [alist_find] at h
        subst h
        exact List.mem_cons_self _ _
      · simp only [alist_find, if_neg hk] at h
        exact List.mem_cons_of_mem _ (alist_find_mem d v rest h)

/-- One `append` on the history touches exactly the bucket of its domain. -/
theorem bucket_appendAt (d d' : String) (r : HealthCheckResult) :
    ∀ m : List (String × List HealthCheckResult),
      bucket (appendAt m d r) d' =
        if d' = d then bucket m d' ++ [r] else bucket m d'
  | [] => by
      by_cases h : d' = d
      · subst h; simp [appendAt, bucket, alist_find]
      · simp [appendAt, bucket, alist_find, h, Ne.symm h]
  | (k, l) :: rest => by
      by_cases hk : k = d
      · subst hk
        by_cases h : d' = k
        · subst h; simp [appendAt, bucket, alist_find]
        · simp [appendAt, bucket, alist_find, h, Ne.symm h]
      · by_cases h : d' = k
        · subst h
          have hd : d' ≠ d := fun hh => hk (hh ▸ rfl)
          simp [appendAt, bucket, alist_find, hk, hd]
        · have hne : ¬ k = d' := fun hh => h hh.symm
          simp only [appendAt, if_neg hk, bucket, alist_find, if_neg hne]
          exact bucket_appendAt d d' r rest

/-- Recording a list of results appends, per domain, exactly the results
carrying that domain, in order. -/
theorem bucket_foldl_record (d : String) :
    ∀ (rs : List HealthCheckResult) (m : List (String × List HealthCheckResult)),
      bucket (rs.foldl (fun m r => appendAt m r.domain r) m) d =
        bucket m d ++ rs.filter (fun r => r.domain == d)
  | [], m => by simp
  | r :: rs, m => by
      simp only [List.foldl_cons, List.filter_cons]
      rw [bucket_foldl_record d rs, bucket_appendAt]
      by_cases h : r.domain = d
      · simp [h, List.append_assoc]
      · have hne : ¬ d = r.domain := fun hh => h hh.symm
        simp [h, hne]

/-- One `append` grows the total number of recorded results by one. -/
theorem total_len_appendAt (d : String) (r : HealthCheckResult) :
    ∀ m, total_len (appendAt m d r) = total_len m + 1
  | [] => by simp [appendAt, total_len]
  | (k, l) :: rest => by
      by_cases h : k = d
      · simp [appendAt, h, total_len]
        omega
      · simp only [appendAt, if_neg h, total_len, List.map_cons, List.sum_cons]
        have := total_len_appendAt d r rest
        simp only [total_len] at this
        omega

/-- Recording `rs` grows the total number of recorded results by `rs.length`. -/
theorem total_len_foldl_record :
    ∀ (rs : List HealthCheckResult) m,
      total_len (rs.foldl (fun m r => appendAt m r.domain r) m) =
        total_len m + rs.length
  | [], m => by simp
  | r :: rs, m => by
      simp only [List.foldl_cons, List.length_cons]
      rw [total_len_foldl_record rs, total_len_appendAt]
      omega

/-- Every result built by `check_endpoint` carries its endpoint's domain. -/
theorem check_endpoint_domain (mlt : ℕ) (ep : EndpointConfig) (o : NetOutcome) :
    (check_endpoint mlt ep o).domain = ep.get_domain := by
  cases o <;> rfl

/-- Filtering a cycle's results by domain is filtering the endpoints by
domain and probing those. -/
theorem cycle_results_filter (mlt : ℕ) (o : EndpointConfig → NetOutcome) (d : String) :
    ∀ eps : List EndpointConfig,
      (eps.map (fun ep => check_endpoint mlt ep (o ep))).filter
          (fun r => r.domain == d) =
        (eps.filter (fun ep => ep.get_domain == d)).map
          (fun ep => check_endpoint mlt ep (o ep))
  | [] => rfl
  | ep :: eps => by
      simp only [List.map_cons, List.filter_cons, check_endpoint_domain]
      by_cases h : ep.get_domain = d
      · simp [h, cycle_results_filter mlt o d eps]
      · simp [h, cycle_results_filter mlt o d eps]

/-- Appending a result never creates an empty bucket. -/
theorem bucketsNonempty_appendAt (d : String) (r : HealthCheckResult) :
    ∀ m, bucketsNonempty m = true → bucketsNonempty (appendAt m d r) = true
  | [], _ => by simp [appendAt, bucketsNonempty]
  | (k, l) :: rest, h => by
      simp only [bucketsNonempty, List.all_cons, Bool.and_eq_true] at h
      by_cases hk : k = d
      · simp [appendAt, hk, bucketsNonempty, h.2]
      · simp only [appendAt, if_neg hk, bucketsNonempty, List.all_cons,
          Bool.and_eq_true, h.1, true_and]
        exact bucketsNonempty_appendAt d r rest h.2

/-- Recording a cycle's results never creates an empty bucket. -/
theorem bucketsNonempty_foldl_record :
    ∀ (rs : List HealthCheckResult) m, bucketsNonempty m = true →
      bucketsNonempty (rs.foldl (fun m r => appendAt m r.domain r) m) = true
  | [], _, h => h
  | r :: rs, m, h => by
      simp only [List.foldl_cons]
      exact bucketsNonempty_foldl_record rs _ (bucketsNonempty_appendAt _ r m h)

/-! ### Claim theorems -/

/-- Claim C2: a result is UP exactly when its status code lies in `[200, 300)`
and its response time is below 500 ms; in particular status 200 at 499.999 ms
is UP, status 200 at exactly 500 ms is DOWN, status 299 at an acceptable time
is UP, and status 300 is DOWN. -/
theorem is_up_iff :
    (∀ r : HealthCheckResult, r.is_up = true ↔
      (200 ≤ r.status_code ∧ r.status_code < 300 ∧
        PyFloat.blt r.response_time_ms (.val 500) = true))
    ∧ HealthCheckResult.is_up
        { endpoint_name := "e", domain := "d",
          response_time_ms := .val (499999/1000), status_code := 200,
          timestamp := 0 } = true
    ∧ HealthCheckResult.is_up
        { endpoint_name := "e", domain := "d", response_time_ms := .val 500,
          status_code := 200, timestamp := 0 } = false
    ∧ HealthCheckResult.is_up
        { endpoint_name := "e", domain := "d", response_time_ms := .val 100,
          status_code := 299, timestamp := 0 } = true
    ∧ HealthCheckResult.is_up
        { endpoint_name := "e", domain := "d", response_time_ms := .val 100,
          status_code := 300, timestamp := 0 } = false := by
  refine ⟨fun r => ?_,
    by norm_num [HealthCheckResult.is_up, PyFloat.blt],
    by norm_num [HealthCheckResult.is_up, PyFloat.blt],
    by norm_num [HealthCheckResult.is_up, PyFloat.blt],
    by norm_num [HealthCheckResult.is_up, PyFloat.blt]⟩
  simp [HealthCheckResult.is_up, Bool.and_eq_true, decide_eq_true_eq, and_assoc]

/-- Claim C3: a result built by `check_endpoint` has status code `0` exactly
when its response time is the infinity sentinel, provided a successful HTTP
exchange carries a genuine status line (at least 100, per RFC 9110). -/
theorem probe_invariant_status_zero_iff_inf (mlt : ℕ) (ep : EndpointConfig)
    (o : NetOutcome) (h : o.httpValid = true) :
    (check_endpoint mlt ep o).status_code = 0 ↔
      (check_endpoint mlt ep o).response_time_ms = PyFloat.inf := by
  cases o with
  | success status elapsed_ms =>
      simp only [NetOutcome.httpValid, decide_eq_true_eq] at h
      simp only [check_endpoint]
      constructor
      · intro hz; omega
      · intro hinf; exact absurd hinf (by simp)
  | failure kind => simp [check_endpoint]

/-- Witness for claim C3 at the concrete outcome `success 200 50`. -/
theorem probe_invariant_status_zero_iff_inf_witness :
    NetOutcome.httpValid (.success 200 50) = true ∧
      ((check_endpoint 0 { name := "e", url := "https://example.com/" }
          (.success 200 50)).status_code = 0 ↔
        (check_endpoint 0 { name := "e", url := "https://example.com/" }
          (.success 200 50)).response_time_ms = PyFloat.inf) :=
  ⟨by decide, probe_invariant_status_zero_iff_inf 0 _ _ (by decide)⟩

/-- Claim C4: every failure path of `check_endpoint` — connection refused,
DNS failure, timeout expiry, malformed response, TLS failure — returns
(rather than raises; the embedding is a total function) a DOWN result with
status code `0` and infinite response time, tagged with the endpoint's name
and domain. -/
theorem failure_paths_return_down (mlt : ℕ) (ep : EndpointConfig)
    (k : FailureKind) :
    (check_endpoint mlt ep (.failure k)).status_code = 0
    ∧ (check_endpoint mlt ep (.failure k)).response_time_ms = PyFloat.inf
    ∧ (check_endpoint mlt ep (.failure k)).is_up = false
    ∧ (check_endpoint mlt ep (.failure k)).endpoint_name = ep.name
    ∧ (check_endpoint mlt ep (.failure k)).domain = ep.get_domain :=
  ⟨rfl, rfl, rfl, rfl, rfl⟩

/-- Claim C5 (counterexample): the history is keyed by the derived domain —
the verbatim netloc — not by host:port. The endpoints `http://example.com/x`
and `http://example.com:80/y` share host `example.com` and port 80 (the http
default), yet one cycle over both records them in two distinct buckets,
`example.com` and `example.com:80`, each of length 1, instead of one shared
bucket of length 2 as the claim requires. -/
theorem cycle_host_port_counterexample :
    sample_http_endpoint.get_domain = "example.com"
    ∧ sample_http80_endpoint.get_domain = "example.com:80"
    ∧ ("example.com" : String) ≠ "example.com:80"
    ∧ (bucket (check_all_endpoints 0 (timeout_oracle 0)
        (HealthChecker.init [sample_http_endpoint, sample_http80_endpoint])).results
        "example.com").length = 1
    ∧ (bucket (check_all_endpoints 0 (timeout_oracle 0)
        (HealthChecker.init [sample_http_endpoint, sample_http80_endpoint])).results
        "example.com:80").length = 1 :=
  ⟨by decide, by decide, by decide, by decide, by decide⟩

/-- Claim C5 (amended): one cycle over `N` endpoints records exactly `N` new
results, and the bucket of each domain receives exactly the results of the
endpoints whose URL derives that domain — the verbatim netloc, so two
endpoints whose URLs yield the same netloc string share one bucket whose
growth is the sum of their probe counts, while the same host:port spelled
differently (with and without the default port) lands in distinct buckets,
and buckets of domains with no endpoint are untouched. -/
theorem cycle_appends_by_domain (mlt : ℕ) (o : EndpointConfig → NetOutcome)
    (hc : HealthChecker) :
    total_len (check_all_endpoints mlt o hc).results =
      total_len hc.results + hc.endpoints.length
    ∧ ∀ d : String,
        bucket (check_all_endpoints mlt o hc).results d =
          bucket hc.results d ++
            (hc.endpoints.filter (fun ep => ep.get_domain == d)).map
              (fun ep => check_endpoint mlt ep (o ep)) := by
  constructor
  · simp only [check_all_endpoints]
    rw [total_len_foldl_record]
    simp
  · intro d
    simp only [check_all_endpoints]
    rw [bucket_foldl_record, cycle_results_filter]

/-- Claim C1: under the reachable-state fact that every recorded bucket is
nonempty (the initial history is empty and, per the last conjunct, recording
a cycle preserves the fact), `get_availability_stats` maps exactly the
domains holding at least one recorded result — no entry for anything else —
each to `round(100·up_count/total_count)` computed over the domain's entire
recorded history (Python `round`, ties to even); a cycle over an empty
endpoint list yields an empty mapping. -/
theorem availability_stats_spec (hc : HealthChecker)
    (h : bucketsNonempty hc.results = true) :
    (get_availability_stats hc).map Prod.fst = hc.results.map Prod.fst
    ∧ (∀ d checks, alist_find hc.results d = some checks →
        alist_find (get_availability_stats hc) d =
          some (round_half_even
            ((100 * ((checks.filter (fun c => c.is_up)).length : ℚ)) /
              (checks.length : ℚ))))
    ∧ (∀ mlt o, get_availability_stats
        (check_all_endpoints mlt o (HealthChecker.init [])) = [])
    ∧ (∀ mlt o, bucketsNonempty (check_all_endpoints mlt o hc).results = true) := by
  refine ⟨?_, ?_, ?_, ?_⟩
  · rw [get_availability_stats, List.map_map]
    exact List.map_congr_left (fun p _ => rfl)
  · intro d checks hfind
    rw [get_availability_stats, alist_find_map_snd, hfind]
    have hmem := alist_find_mem d checks hc.results hfind
    have hpos : 0 < checks.length := by
      simp only [bucketsNonempty, List.all_eq_true] at h
      have hne := h _ hmem
      simp only [Bool.not_eq_true'] at hne
      cases checks with
      | nil => exact absurd hne (by decide)
      | cons c cs => simp
    simp only [Option.map_some']
    congr 1
    simp only [statVal]
    rw [if_pos hpos]
    congr 1
    ring
  · intro mlt o
    rfl
  · intro mlt o
    simp only [check_all_endpoints]
    exact bucketsNonempty_foldl_record _ _ h

/-- Witness for claim C1 at a one-result history holding one UP check. -/
theorem availability_stats_spec_witness :
    bucketsNonempty sample_checker.results = true
    ∧ alist_find (get_availability_stats sample_checker) "d" =
        some (round_half_even
          ((100 * ((([sample_result] : List HealthCheckResult).filter
              (fun c => c.is_up)).length : ℚ)) /
            (([sample_result] : List HealthCheckResult).length : ℚ))) :=
  ⟨rfl, (availability_stats_spec sample_checker rfl).2.1 "d" [sample_result] rfl⟩

/-- Claim C6: `stop()` only clears the running flag; a stop issued during the
inter-cycle sleep makes the loop exit at the next flag check without starting
another cycle; a cycle already underway runs to completion (probing,
aggregation, reporting) whatever the flag says; and the flag is consulted
only at the `while` test, never inside any other phase. -/
theorem stop_observed_at_cycle_boundaries (mlt : ℕ)
    (o : ℕ → EndpointConfig → NetOutcome) (s : MonitoringService) :
    (s.stop.running = false ∧ s.stop.phase = s.phase
      ∧ s.stop.health_checker = s.health_checker ∧ s.stop.cycles = s.cycles)
    ∧ (s.phase = .sleeping → s.running = false →
        (service_step mlt o (service_step mlt o s)).phase = .stopped
        ∧ (service_step mlt o (service_step mlt o s)).cycles = s.cycles
        ∧ (service_step mlt o (service_step mlt o s)).health_checker =
            s.health_checker)
    ∧ (s.phase = .in_cycle →
        (service_step mlt o s).phase = .sleeping
        ∧ (service_step mlt o s).cycles = s.cycles + 1
        ∧ (service_step mlt o s).health_checker =
            check_all_endpoints mlt (o s.cycles) s.health_checker
        ∧ (service_step mlt o s).last_report =
            get_availability_stats
              (check_all_endpoints mlt (o s.cycles) s.health_checker))
    ∧ (s.phase ≠ .check_flag → ∀ b1 b2 : Bool,
        (service_step mlt o { s with running := b1 }).phase =
          (service_step mlt o { s with running := b2 }).phase) := by
  refine ⟨⟨rfl, rfl, rfl, rfl⟩, ?_, ?_, ?_⟩
  · intro hph hrun
    simp [service_step, hph, hrun]
  · intro hph
    simp [service_step, run_check_cycle, hph]
  · intro hph b1 b2
    cases hp : s.phase with
    | idle => simp [service_step, hp]
    | check_flag => exact absurd hp hph
    | in_cycle => simp [service_step, hp]
    | sleeping => simp [service_step, hp]
    | stopped => simp [service_step, hp]

/-- Witness for claim C6: from a sleeping state with the flag already
cleared, two steps reach `stopped` with no new cycle and no history change. -/
theorem stop_observed_at_cycle_boundaries_witness :
    (service_step 0 timeout_oracle
        (service_step 0 timeout_oracle sample_sleeping_service)).phase = .stopped
    ∧ (service_step 0 timeout_oracle
        (service_step 0 timeout_oracle sample_sleeping_service)).cycles =
        sample_sleeping_service.cycles
    ∧ (service_step 0 timeout_oracle
        (service_step 0 timeout_oracle sample_sleeping_service)).health_checker =
        sample_sleeping_service.health_checker :=
  (stop_observed_at_cycle_boundaries 0 timeout_oracle sample_sleeping_service).2.1
    rfl rfl

/-- Claim C9 (refuting theorem): the `timestamp` of every result produced by
`check_endpoint` is the single dataclass-default value evaluated at module
import, so results captured at different times nevertheless carry equal
timestamps. -/
theorem timestamp_shared_constant (mlt : ℕ) (ep1 ep2 : EndpointConfig)
    (o1 o2 : NetOutcome) :
    (check_endpoint mlt ep1 o1).timestamp = mlt
    ∧ (check_endpoint mlt ep1 o1).timestamp =
        (check_endpoint mlt ep2 o2).timestamp := by
  cases o1 <;> cases o2 <;> exact ⟨rfl, rfl⟩

/-- A scheme character is never a colon. -/
theorem schemeChar_ne_colon {c : Char} (h : schemeChar c = true) :
    (c != ':') = true := by
  by_cases hc : c = ':'
  · subst hc; exact absurd h (by decide)
  · simp [bne_iff_ne, hc]

/-- Scanning a list whose prefix satisfies `p` up to a failing character
returns exactly that prefix. -/
theorem takeWhile_append_stop (p : Char → Bool) (c : Char) (hc : p c = false) :
    ∀ (s t : List Char), s.all p = true → (s ++ c :: t).takeWhile p = s
  | [], t, _ => by simp [List.takeWhile_cons, hc]
  | x :: s, t, h => by
      simp only [List.all_cons, Bool.and_eq_true] at h
      simp [List.takeWhile_cons, h.1, takeWhile_append_stop p c hc s t h.2]

/-- The netloc scan stops exactly at the first delimiter. -/
theorem takeNetloc_append (rest : List Char) :
    ∀ a : List Char, a.all (fun c => !netlocDelim c) = true →
      takeNetloc (a ++ '/' :: rest) = a
  | [], _ => by
      have hd : netlocDelim '/' = true := by decide
      simp [takeNetloc, hd]
  | c :: a, h => by
      simp only [List.all_cons, Bool.and_eq_true] at h
      have hcd : netlocDelim c = false := by
        cases hx : netlocDelim c
        · rfl
        · rw [hx] at h; exact absurd h.1 (by decide)
      simp [takeNetloc, hcd, takeNetloc_append rest a h.2]

/-- Claim C7 (counterexample): the code returns `urlparse(url).netloc`
verbatim. For `https://example.com:443/path`, whose written port 443 is the
https default, the claimed rule yields the host alone, `example.com`; the
code keeps the port. Userinfo, when present, is also kept — more than host
and port. -/
theorem get_domain_counterexample :
    EndpointConfig.get_domain
        { name := "a", url := "https://example.com:443/path" } =
      "example.com:443"
    ∧ ("example.com:443" : String) ≠ "example.com"
    ∧ EndpointConfig.get_domain
        { name := "b", url := "https://user:pw@example.com/" } =
      "user:pw@example.com" :=
  ⟨by decide, by decide, by decide⟩

/-- Claim C7 (amended): the derived domain is a deterministic function of the
URL alone and equals `urlparse(url).netloc` — for a URL
`scheme://authority/...` with a well-formed scheme and an authority free of
`/`, `?`, `#`, it is exactly the authority text: host plus port whenever the
URL writes one (default or not), userinfo included when present. -/
theorem get_domain_netloc_amended :
    (∀ e1 e2 : EndpointConfig, e1.url = e2.url → e1.get_domain = e2.get_domain)
    ∧ (∀ ep : EndpointConfig,
        ep.get_domain = String.mk (urlparseNetloc ep.url.data))
    ∧ (∀ s a rest : List Char, validScheme s = true →
        a.all (fun c => !netlocDelim c) = true →
        urlparseNetloc (s ++ ':' :: '/' :: '/' :: (a ++ '/' :: rest)) = a) := by
  refine ⟨fun e1 e2 h => by simp [EndpointConfig.get_domain, h],
    fun ep => rfl, ?_⟩
  intro s a rest hs ha
  obtain ⟨c0, s', rfl⟩ : ∃ c0 s', s = c0 :: s' := by
    cases s with
    | nil => exact absurd hs (by decide)
    | cons c0 s' => exact ⟨c0, s', rfl⟩
  simp only [validScheme, Bool.and_eq_true] at hs
  have hall : (c0 :: s').all (fun c => c != ':') = true := by
    rw [List.all_eq_true]
    intro x hx
    exact schemeChar_ne_colon (List.all_eq_true.mp hs.2 x hx)
  have hpre : ((c0 :: s') ++ ':' :: '/' :: '/' :: (a ++ '/' :: rest)).takeWhile
      (fun c => c != ':') = c0 :: s' :=
    takeWhile_append_stop _ ':' (by decide) _ _ hall
  have hvs : validScheme (c0 :: s') = true := by
    simp only [validScheme, Bool.and_eq_true]
    exact hs
  simp only [urlparseNetloc, stripScheme, hpre]
  have hlen : (c0 :: s').length <
      ((c0 :: s') ++ ':' :: '/' :: '/' :: (a ++ '/' :: rest)).length := by
    simp [List.length_append]
  rw [if_pos]
  swap
  · rw [Bool.and_eq_true, decide_eq_true_eq]
    exact ⟨hlen, hvs⟩
  have hdrop : ((c0 :: s') ++ ':' :: '/' :: '/' :: (a ++ '/' :: rest)).drop
      ((c0 :: s').length + 1) = '/' :: '/' :: (a ++ '/' :: rest) := by
    rw [show (c0 :: s') ++ ':' :: '/' :: '/' :: (a ++ '/' :: rest) =
        ((c0 :: s') ++ [':']) ++ ('/' :: '/' :: (a ++ '/' :: rest)) by simp]
    rw [show (c0 :: s').length + 1 = ((c0 :: s') ++ [':']).length by simp]
    exact List.drop_left _ _
  rw [hdrop]
  exact takeNetloc_append rest a ha

/-- Witness for claim C7 (amended) at `https://api.example.com:8080/path`:
the derived domain keeps the non-default port, exactly as the source file's
own docstring example says. -/
theorem get_domain_netloc_amended_witness :
    validScheme "https".data = true
    ∧ "api.example.com:8080".data.all (fun c => !netlocDelim c) = true
    ∧ urlparseNetloc ("https".data ++ ':' :: '/' :: '/' ::
        ("api.example.com:8080".data ++ '/' :: "path".data)) =
      "api.example.com:8080".data :=
  ⟨by decide, by decide,
    get_domain_netloc_amended.2.2 _ _ _ (by decide) (by decide)⟩

/-- Claim C8 (counterexample): the configured body goes through aiohttp's
`json=` keyword, so the wire body is `json.dumps(body)` — for the body
`ping` the bytes sent are the seven characters `"ping"` (quoted), not the
body unaltered; and an empty-string body, though present, is sent as no body
at all (Python truthiness of the `if endpoint.body` guard). -/
theorem body_sent_counterexample :
    (requests_issued (HealthChecker.init []) sample_body_endpoint).map
        HttpRequest.wire_body = [some "\"ping\""]
    ∧ some ("\"ping\"" : String) ≠ sample_body_endpoint.body
    ∧ (requests_issued (HealthChecker.init []) sample_empty_body_endpoint).map
        HttpRequest.wire_body = [none]
    ∧ sample_empty_body_endpoint.body = some "" :=
  ⟨by decide, by decide, by decide, rfl⟩

/-- Claim C8 (amended): `check_endpoint` issues exactly one request per
endpoint, with the descriptor's method, URL and headers and the single
global 5-second timeout (not per-endpoint); the wire body is `json.dumps`
of the configured body when that body is a non-empty string, and absent
otherwise. -/
theorem request_construction_amended (eps : List EndpointConfig)
    (ep : EndpointConfig) :
    (requests_issued (HealthChecker.init eps) ep).length = 1
    ∧ ∀ r ∈ requests_issued (HealthChecker.init eps) ep,
        r.method = ep.method ∧ r.url = ep.url ∧ r.headers = ep.headers
        ∧ r.timeout_total = 5
        ∧ r.wire_body = (pyTruthyStr ep.body).map json_dumps_str := by
  refine ⟨rfl, ?_⟩
  intro r hr
  simp only [requests_issued, List.mem_singleton] at hr
  subst hr
  exact ⟨rfl, rfl, rfl, rfl, rfl⟩

/-- Witness for claim C8 (amended) at the `ping`-body endpoint. -/
theorem request_construction_amended_witness :
    (build_request 5 sample_body_endpoint).method = sample_body_endpoint.method
    ∧ (build_request 5 sample_body_endpoint).timeout_total = 5
    ∧ (build_request 5 sample_body_endpoint).wire_body =
        (pyTruthyStr sample_body_endpoint.body).map json_dumps_str := by
  have h := (request_construction_amended [] sample_body_endpoint).2
    (build_request 5 sample_body_endpoint) (by simp [requests_issued, HealthChecker.init])
  exact ⟨h.1, h.2.2.2.1, h.2.2.2.2⟩

/-- Claim C10: `get_availability_stats` is a pure observer — the call leaves
the endpoint list, the recorded history and the timeout unchanged, and two
consecutive calls with no intervening record return equal mappings. -/
theorem availability_stats_pure_observer (hc : HealthChecker) :
    (get_availability_stats_call hc).1 = hc
    ∧ (get_availability_stats_call hc).1.endpoints = hc.endpoints
    ∧ (get_availability_stats_call hc).1.results = hc.results
    ∧ (get_availability_stats_call hc).1.timeout_total = hc.timeout_total
    ∧ (get_availability_stats_call ((get_availability_stats_call hc).1)).2 =
        (get_availability_stats_call hc).2 :=
  ⟨rfl, rfl, rfl, rfl, rfl⟩
